import Mathlib

/-!
Shallow embedding of the Viseron recordings storage query
(`viseron/components/storage/models.py`, `Recordings.get_files`) and of the
recordings API handler (`viseron/components/webserver/api/v1/recordings.py`),
together with proofs of the specification's claims about them.

Times are modelled as exact rationals (the Python code works with
`datetime.timestamp()` floats; rationals subsume every float value and keep
arithmetic exact).  Strings are Lean `String`s; the SQL string comparison
(`BETWEEN` under byte collation) is modelled as lexicographic comparison of
the underlying character lists by code point.  A SQL `NULL` produced by a
missing JSONB key or a failed cast is modelled as `none`, and a comparison
against it as not-true, following SQL three-valued logic.
-/

attribute [local semireducible] Rat.add Rat.sub Rat.mul Rat.inv

/-- Model of a JSONB value stored in the `meta` column of `files_meta`.
Only the shapes the query can observe are distinguished: numbers, strings,
objects and null. -/
inductive JsonVal where
  | num (q : ℚ)
  | jstr (s : String)
  | obj (entries : List (String × JsonVal))
  | null

/-- JSONB key lookup, the SQL `->` operator: `none` when the value is not an
object or the key is missing (SQL NULL). -/
def JsonVal.lookup : JsonVal → String → Option JsonVal
  | .obj entries, k => entries.lookup k
  | _, _ => none

/-- Cast of a JSONB value to Float, as in `cast(..., Float)`: only a JSON
number casts; anything else (including NULL) yields NULL. -/
def jsonCastFloat : Option JsonVal → Option ℚ
  | some (.num q) => some q
  | _ => none

/-- Row of the `files` table (class `Files` in models.py). -/
structure Files where
  id : ℕ
  tier_id : ℕ
  camera_identifier : String
  category : String
  path : String
  directory : String
  filename : String
  size : ℕ
  created_at : Option ℚ
  updated_at : Option ℚ

/-- Row of the `files_meta` table (class `FilesMeta` in models.py). -/
structure FilesMeta where
  id : ℕ
  path : String
  meta : JsonVal
  created_at : Option ℚ
  updated_at : Option ℚ

/-- Row of the `recordings` table (class `Recordings` in models.py).
`start_time` and `end_time` are kept as unix-seconds rationals, the values
`datetime.timestamp()` produces from the stored datetimes. -/
structure Recordings where
  id : ℕ
  camera_identifier : String
  start_time : ℚ
  end_time : Option ℚ
  created_at : Option ℚ
  updated_at : Option ℚ
  trigger_type : Option String
  trigger_id : Option ℕ
  thumbnail_path : String

/-- Row of the `objects` table (class `Objects` in models.py). -/
structure Objects where
  id : ℕ
  camera_identifier : String
  label : String
  confidence : ℚ
  width : ℚ
  height : ℚ
  x1 : ℚ
  y1 : ℚ
  x2 : ℚ
  y2 : ℚ
  zone : Option String
  created_at : Option ℚ
  updated_at : Option ℚ

/-- Row of the `motion` table (class `Motion` in models.py). -/
structure Motion where
  id : ℕ
  camera_identifier : String
  start_time : ℚ
  created_at : Option ℚ
  updated_at : Option ℚ

/-- The relational store: one list of rows per table of models.py. -/
structure DB where
  files : List Files
  files_meta : List FilesMeta
  recordings : List Recordings
  objects : List Objects
  motion : List Motion

/-! ### Decimal strings and their lexicographic order

`Files.filename` carries the fragment start time as a zero-padded 10-digit
decimal prefix.  The query compares `substr(filename, 1, 10)` against
`str(int(start))` / `str(int(end))` as strings, and casts it to Float for the
lookback branch. -/

/-- Lexicographic comparison of character lists by code point: the order SQL
uses for string `BETWEEN` under byte (C) collation. -/
def lexLe : List Char → List Char → Bool
  | [], _ => true
  | _ :: _, [] => false
  | a :: as, b :: bs =>
    if a.toNat < b.toNat then true
    else if b.toNat < a.toNat then false
    else lexLe as bs

/-- Recursion of the decimal renderer, with an explicit structural fuel (any
fuel at least the argument is enough, since the argument shrinks by a factor
of ten at each step). -/
def natStrAux (fuel : ℕ) (n : ℕ) : List Char :=
  match fuel with
  | 0 => []
  | fuel + 1 =>
    if n < 10 then [Nat.digitChar n]
    else natStrAux fuel (n / 10) ++ [Nat.digitChar (n % 10)]

/-- Decimal rendering of a natural number without padding, as Python `str`
produces for a non-negative int. -/
def natStr (n : ℕ) : List Char := natStrAux n n

/-- Python `str(i)` for an int `i`: a minus sign followed by digits when
negative. -/
def intStr (i : ℤ) : List Char :=
  if i < 0 then '-' :: natStr i.natAbs else natStr i.toNat

/-- Fixed-width decimal encoding: the `k` low decimal digits of `n`,
zero-padded, most significant first.  For `n < 10^k` this is the fragment
filename timestamp prefix of width `k`. -/
def padEncode (k : ℕ) (n : ℕ) : List Char :=
  match k with
  | 0 => []
  | k + 1 => Nat.digitChar (n / 10 ^ k % 10) :: padEncode k (n % 10 ^ k)

/-- Accumulator loop of the decimal parser. -/
def digitsValAux : ℕ → List Char → Option ℕ
  | acc, [] => some acc
  | acc, c :: cs =>
    if 48 ≤ c.toNat ∧ c.toNat ≤ 57 then digitsValAux (acc * 10 + (c.toNat - 48)) cs
    else none

/-- Parse a list of characters as an unsigned decimal number: the SQL cast of
the timestamp substring to Float, with a malformed string yielding NULL. -/
def digitsVal (l : List Char) : Option ℕ := digitsValAux 0 l

/-- Python `int()` on an exact rational: truncation toward zero. -/
def ratTrunc (q : ℚ) : ℤ := q.num.tdiv q.den

/-- SQL `Files.path.endswith(pat)`: `pat` is a suffix of `s`, decided on the
underlying character lists. -/
def strEndsWith (s pat : String) : Bool :=
  s.data.drop (s.data.length - pat.data.length) == pat.data

/-- Insertion step of the ordering model: put `a` in front of the first
element it is `le`-below. -/
def insertLe {α : Type} (le : α → α → Bool) (a : α) : List α → List α
  | [] => [a]
  | b :: l => if le a b then a :: b :: l else b :: insertLe le a l

/-- Model of the SQL `ORDER BY ... ASC` on a row list: a sort of the rows by
the comparison `le` (insertion sort, chosen for its structural recursion). -/
def sortLe {α : Type} (le : α → α → Bool) : List α → List α
  | [] => []
  | a :: l => insertLe le a (sortLe le l)

/-! ### The query of `Recordings.get_files` -/

/-- Window start used by `get_files`: `self.start_time.timestamp() - lookback`
(line 92 of models.py). -/
def windowStart (rec : Recordings) (lookback : ℚ) : ℚ := rec.start_time - lookback

/-- Window end used by `get_files`: `end_time.timestamp()` or, when `end_time`
is NULL, `datetime.datetime.now().timestamp()` (lines 93-96 of models.py);
`now` is the clock reading. -/
def windowEnd (rec : Recordings) (now : ℚ) : ℚ :=
  match rec.end_time with
  | none => now
  | some e => e

/-- First 10 characters of the filename: `func.substr(Files.filename, 1, 10)`. -/
def substrTs (f : Files) : List Char := f.filename.data.take 10

/-- In-window branch of the `or_` (lines 106-109 of models.py):
`substr(filename,1,10) BETWEEN str(int(start)) AND str(int(end))`, a string
comparison. -/
def inWindow (start endT : ℚ) (f : Files) : Bool :=
  lexLe (intStr (ratTrunc start)) (substrTs f) &&
  lexLe (substrTs f) (intStr (ratTrunc endT))

/-- The duration value the query reads from the metadata:
`cast(FilesMeta.meta["m3u8"]["EXTINF"], Float)` (line 116 of models.py),
NULL when the nested key is absent or not a number. -/
def extinf (fm : FilesMeta) : Option ℚ :=
  jsonCastFloat ((fm.meta.lookup "m3u8").bind (fun v => v.lookup "EXTINF"))

/-- Lookback branch of the `or_` (lines 110-118 of models.py):
`start >= cast(substr(filename,1,10), Float)` and
`start <= cast(substr(filename,1,10), Float) + cast(meta["m3u8"]["EXTINF"], Float)`.
A NULL on either cast makes the conjunction not-true. -/
def lookbackOverlap (start : ℚ) (f : Files) (fm : FilesMeta) : Bool :=
  match (digitsVal (substrTs f)).map (Nat.cast : ℕ → ℚ), extinf fm with
  | some t, some d => decide ((t : ℚ) ≤ start) && decide (start ≤ t + d)
  | _, _ => false

/-- Conjunction of the `.where` clauses of the statement (lines 101-119 of
models.py). -/
def whereClause (rec : Recordings) (start endT : ℚ) (f : Files) (fm : FilesMeta) : Bool :=
  f.camera_identifier == rec.camera_identifier &&
  f.category == "recorder" &&
  strEndsWith f.path ".m4s" &&
  (inWindow start endT f || lookbackOverlap start f fm)

/-- Inner join `Files ⋈ FilesMeta` on `Files.path == FilesMeta.path`
(lines 99-100 of models.py). -/
def joinOnPath (fs : List Files) (fms : List FilesMeta) : List (Files × FilesMeta) :=
  fs.flatMap (fun f => (fms.filter (fun fm => f.path == fm.path)).map (fun fm => (f, fm)))

/-- Embedding of `Recordings.get_files` (lines 88-123 of models.py): join,
filter by the where clauses, order ascending by `Files.filename`.  The session
executes a single SELECT, so the store it returns to the caller is the store it
was given; the pair returned is (result rows, store after the call). -/
def Recordings.get_files (rec : Recordings) (lookback : ℚ) (now : ℚ) (db : DB) :
    List (Files × FilesMeta) × DB :=
  let start := windowStart rec lookback
  let endT := windowEnd rec now
  let rows := (joinOnPath db.files db.files_meta).filter
    (fun p => whereClause rec start endT p.1 p.2)
  (sortLe (fun a b => lexLe a.1.filename.data b.1.filename.data) rows, db)

/-! ### The recordings API handler

Embedding of `RecordingsAPIHandler` (recordings.py).  The recorder of a
camera is modelled as a bundle of its four query operations, with an abstract
result type `R` for the payloads they return; the handler's observable
behaviour is the response it sends plus the trace of core recorder calls it
makes. -/

/-- Status code sent for a missing camera
(`STATUS_ERROR_ENDPOINT_NOT_FOUND` from webserver/const.py). -/
def STATUS_ERROR_ENDPOINT_NOT_FOUND : ℕ := 404

/-- Status code sent for a failed delete (`STATUS_ERROR_INTERNAL` from
webserver/const.py). -/
def STATUS_ERROR_INTERNAL : ℕ := 500

/-- One call into a camera's recorder: the core operations the handler can
invoke. -/
inductive CoreCall where
  | getRecordings (date : Option String)
  | getLatestRecording (date : Option String)
  | getLatestRecordingDaily
  | deleteRecording (date : Option String) (filename : Option String)
  deriving DecidableEq

/-- Response sent by the handler: `response_success` with a payload,
`response_success` with no payload, or `response_error(status, reason)`. -/
inductive ApiResponse (R : Type) where
  | success (payload : R)
  | successEmpty
  | error (status : ℕ) (reason : String)
  deriving DecidableEq

/-- The recorder operations of one camera, with payload type `R`. -/
structure Recorder (R : Type) where
  get_recordings : Option String → R
  get_latest_recording : Option String → R
  get_latest_recording_daily : R
  delete_recording : Option String → Option String → Bool

/-- A camera handle as the handler sees it. -/
structure Camera (R : Type) where
  identifier : String
  recorder : Recorder R

/-- Request arguments relevant to the recordings routes:
`request_arguments["latest"]` and `request_arguments.get("daily", False)`. -/
structure RequestArgs where
  latest : Bool
  daily : Bool

/-- Python `str` of an optional string argument as interpolated into the
failure reason f-string (`None` when absent). -/
def optStr : Option String → String
  | none => "None"
  | some s => s

/-- Embedding of `RecordingsAPIHandler.get_recordings_camera`
(lines 146-168 of recordings.py).  `reg` is the camera registry lookup
performed by `self._get_camera`; the result is the response sent and the
trace of recorder calls made. -/
def RecordingsAPIHandler.get_recordings_camera {R : Type}
    (reg : String → Option (Camera R)) (args : RequestArgs)
    (camera_identifier : String) (date : Option String) :
    ApiResponse R × List CoreCall :=
  match reg camera_identifier with
  | none =>
      (.error STATUS_ERROR_ENDPOINT_NOT_FOUND
        ("Camera " ++ camera_identifier ++ " not found"), [])
  | some camera =>
      if args.latest && args.daily then
        (.success camera.recorder.get_latest_recording_daily,
         [.getLatestRecordingDaily])
      else if args.latest then
        (.success (camera.recorder.get_latest_recording date),
         [.getLatestRecording date])
      else
        (.success (camera.recorder.get_recordings date), [.getRecordings date])

/-- Concrete rational one half, used as a sub-second lookback. -/
def qHalf : ℚ := Rat.mk' 1 2 (by decide) (by decide)

/-- Concrete rational one quarter, used as a short fragment duration. -/
def qQuarter : ℚ := Rat.mk' 1 4 (by decide) (by decide)

/-- Concrete fragment file starting at unix second 1700000000. -/
def fileA : Files :=
  { id := 1, tier_id := 0, camera_identifier := "front_door"
  , category := "recorder", path := "/rec/1700000000.m4s", directory := "/rec"
  , filename := "1700000000.m4s", size := 1000
  , created_at := none, updated_at := none }

/-- Metadata row for `fileA` with a quarter-second EXTINF duration. -/
def metaA : FilesMeta :=
  { id := 1, path := "/rec/1700000000.m4s"
  , meta := .obj [("m3u8", .obj [("EXTINF", .num qQuarter)])]
  , created_at := none, updated_at := none }

/-- Concrete recording starting at 1700000001 and ending at 1700000100. -/
def recA : Recordings :=
  { id := 1, camera_identifier := "front_door", start_time := 1700000001
  , end_time := some 1700000100, created_at := none, updated_at := none
  , trigger_type := none, trigger_id := none, thumbnail_path := "/thumb/1.jpg" }

/-- Store holding only `fileA` and its metadata. -/
def dbA : DB :=
  { files := [fileA], files_meta := [metaA], recordings := [recA]
  , objects := [], motion := [] }

/-- Concrete fragment file starting at 1700000090. -/
def fileB1 : Files :=
  { id := 2, tier_id := 0, camera_identifier := "front_door"
  , category := "recorder", path := "/rec/1700000090.m4s", directory := "/rec"
  , filename := "1700000090.m4s", size := 1000
  , created_at := none, updated_at := none }

/-- Metadata row for `fileB1` with a 20 second duration. -/
def metaB1 : FilesMeta :=
  { id := 2, path := "/rec/1700000090.m4s"
  , meta := .obj [("m3u8", .obj [("EXTINF", .num 20)])]
  , created_at := none, updated_at := none }

/-- Concrete fragment file starting at 1700000095, overlapping `fileB1`. -/
def fileB2 : Files :=
  { id := 3, tier_id := 0, camera_identifier := "front_door"
  , category := "recorder", path := "/rec/1700000095.m4s", directory := "/rec"
  , filename := "1700000095.m4s", size := 1000
  , created_at := none, updated_at := none }

/-- Metadata row for `fileB2` with a 20 second duration. -/
def metaB2 : FilesMeta :=
  { id := 3, path := "/rec/1700000095.m4s"
  , meta := .obj [("m3u8", .obj [("EXTINF", .num 20)])]
  , created_at := none, updated_at := none }

/-- Concrete recording starting at 1700000100 and ending at 1700000200. -/
def recB : Recordings :=
  { id := 2, camera_identifier := "front_door", start_time := 1700000100
  , end_time := some 1700000200, created_at := none, updated_at := none
  , trigger_type := none, trigger_id := none, thumbnail_path := "/thumb/2.jpg" }

/-- Store holding the two overlapping pre-window fragments. -/
def dbB : DB :=
  { files := [fileB1, fileB2], files_meta := [metaB1, metaB2]
  , recordings := [recB], objects := [], motion := [] }

/-- Metadata row for `fileA`'s path whose `m3u8` object lacks the EXTINF
duration. -/
def metaC : FilesMeta :=
  { id := 4, path := "/rec/1700000000.m4s"
  , meta := .obj [("m3u8", .obj [])]
  , created_at := none, updated_at := none }

/-- Store pairing `fileA` with the duration-less metadata row. -/
def dbC : DB :=
  { files := [fileA], files_meta := [metaC], recordings := [recA]
  , objects := [], motion := [] }

/-- Store holding `fileA` with no metadata row at all. -/
def dbD : DB :=
  { files := [fileA], files_meta := [], recordings := [recB]
  , objects := [], motion := [] }

/-- Concrete camera whose recorder refuses every delete. -/
def camX : Camera Unit :=
  { identifier := "front_door"
  , recorder :=
    { get_recordings := fun _ => ()
    , get_latest_recording := fun _ => ()
    , get_latest_recording_daily := ()
    , delete_recording := fun _ _ => false } }

/-- Registry holding only `camX`. -/
def regX : String → Option (Camera Unit) :=
  fun s => if s = "front_door" then some camX else none

/-- Embedding of `RecordingsAPIHandler.delete_recording`
(lines 170-191 of recordings.py). -/
def RecordingsAPIHandler.delete_recording {R : Type}
    (reg : String → Option (Camera R))
    (camera_identifier : String) (date : Option String)
    (filename : Option String) :
    ApiResponse R × List CoreCall :=
  match reg camera_identifier with
  | none =>
      (.error STATUS_ERROR_ENDPOINT_NOT_FOUND
        ("Camera " ++ camera_identifier ++ " not found"), [])
  | some camera =>
      if camera.recorder.delete_recording date filename then
        (.successEmpty, [.deleteRecording date filename])
      else
        (.error STATUS_ERROR_INTERNAL
          ("Failed to delete recording. Date=" ++ optStr date ++
            " filename=" ++ optStr filename),
         [.deleteRecording date filename])

/-! ### Lemmas on the decimal encoding and its lexicographic order -/

/-- The code point of a decimal digit character. -/
theorem digitChar_toNat : ∀ d : ℕ, d < 10 → (Nat.digitChar d).toNat = 48 + d := by
  decide

/-- The fixed-width encoding splits its last digit off. -/
theorem padEncode_succ (k n : ℕ) :
    padEncode (k + 1) n = padEncode k (n / 10) ++ [Nat.digitChar (n % 10)] := by
  induction k generalizing n with
  | zero => simp [padEncode]
  | succ k ih =>
    have h1 : n / 10 / 10 ^ k = n / 10 ^ (k + 1) := by
      rw [Nat.div_div_eq_div_mul, ← pow_succ']
    have h2 : n % 10 ^ (k + 1) / 10 = n / 10 % 10 ^ k := by
      rw [pow_succ']
      exact Nat.mod_mul_right_div_self n 10 (10 ^ k)
    have h3 : n % 10 ^ (k + 1) % 10 = n % 10 :=
      Nat.mod_mod_of_dvd n (dvd_pow_self 10 (Nat.succ_ne_zero k))
    show Nat.digitChar (n / 10 ^ (k + 1) % 10) :: padEncode (k + 1) (n % 10 ^ (k + 1)) =
      Nat.digitChar (n / 10 / 10 ^ k % 10) :: (padEncode k (n / 10 % 10 ^ k) ++
        [Nat.digitChar (n % 10)])
    rw [ih (n % 10 ^ (k + 1)), h2, h3, h1]

/-- The fuel-driven renderer agrees with the fixed-width encoding on numbers
of known digit count, for any sufficient fuel. -/
theorem natStrAux_eq_padEncode :
    ∀ k fuel n, n ≤ fuel → 10 ^ k ≤ n → n < 10 ^ (k + 1) →
      natStrAux fuel n = padEncode (k + 1) n := by
  intro k
  induction k with
  | zero =>
    intro fuel n hfuel h1 h2
    match fuel with
    | 0 => omega
    | fuel + 1 =>
      have hlt : n < 10 := by simpa using h2
      simp [natStrAux, hlt, padEncode, Nat.mod_eq_of_lt hlt]
  | succ k ih =>
    intro fuel n hfuel h1 h2
    have h10 : 10 ≤ n := by
      calc (10 : ℕ) = 10 ^ 1 := (pow_one 10).symm
        _ ≤ 10 ^ (k + 1) := Nat.pow_le_pow_right (by omega) (by omega)
        _ ≤ n := h1
    match fuel with
    | 0 => omega
    | fuel + 1 =>
      have hnlt : ¬ n < 10 := by omega
      have hdivlt : n / 10 < n := Nat.div_lt_self (by omega) (by omega)
      have hrec : natStrAux fuel (n / 10) = padEncode (k + 1) (n / 10) := by
        apply ih fuel (n / 10) (by omega)
        · rw [Nat.le_div_iff_mul_le (by omega)]
          calc 10 ^ k * 10 = 10 ^ (k + 1) := (pow_succ 10 k).symm
            _ ≤ n := h1
        · rw [Nat.div_lt_iff_lt_mul (by omega)]
          calc n < 10 ^ (k + 2) := h2
            _ = 10 ^ (k + 1) * 10 := pow_succ 10 (k + 1)
      show (if n < 10 then [Nat.digitChar n]
        else natStrAux fuel (n / 10) ++ [Nat.digitChar (n % 10)]) = _
      rw [if_neg hnlt, hrec, ← padEncode_succ]

/-- On a number whose decimal width is exactly `k + 1`, the Python renderer
produces precisely the fixed-width encoding of that width. -/
theorem natStr_eq_padEncode (k n : ℕ) (h1 : 10 ^ k ≤ n) (h2 : n < 10 ^ (k + 1)) :
    natStr n = padEncode (k + 1) n :=
  natStrAux_eq_padEncode k n n le_rfl h1 h2

/-- Unfolding of the lexicographic comparison on two cons cells. -/
theorem lexLe_cons (a b : Char) (as bs : List Char) :
    lexLe (a :: as) (b :: bs) =
      if a.toNat < b.toNat then true
      else if b.toNat < a.toNat then false
      else lexLe as bs := rfl

/-- On fixed-width encodings of equal width, lexicographic order is numeric
order: the digit-width safety argument of the in-window comparison. -/
theorem lexLe_padEncode :
    ∀ k a b, a < 10 ^ k → b < 10 ^ k →
      (lexLe (padEncode k a) (padEncode k b) = true ↔ a ≤ b) := by
  intro k
  induction k with
  | zero =>
    intro a b ha hb
    have ha0 : a = 0 := by simpa using ha
    have hb0 : b = 0 := by simpa using hb
    subst ha0; subst hb0
    simp [padEncode, lexLe]
  | succ k ih =>
    intro a b ha hb
    have hpow : 0 < 10 ^ k := pow_pos (by omega) k
    have hqa : a / 10 ^ k < 10 := by
      rw [Nat.div_lt_iff_lt_mul hpow]
      calc a < 10 ^ (k + 1) := ha
        _ = 10 * 10 ^ k := by ring
    have hqb : b / 10 ^ k < 10 := by
      rw [Nat.div_lt_iff_lt_mul hpow]
      calc b < 10 ^ (k + 1) := hb
        _ = 10 * 10 ^ k := by ring
    have ea : padEncode (k + 1) a =
        Nat.digitChar (a / 10 ^ k) :: padEncode k (a % 10 ^ k) := by
      show Nat.digitChar (a / 10 ^ k % 10) :: _ = _
      rw [Nat.mod_eq_of_lt hqa]
    have eb : padEncode (k + 1) b =
        Nat.digitChar (b / 10 ^ k) :: padEncode k (b % 10 ^ k) := by
      show Nat.digitChar (b / 10 ^ k % 10) :: _ = _
      rw [Nat.mod_eq_of_lt hqb]
    rw [ea, eb, lexLe_cons, digitChar_toNat _ hqa, digitChar_toNat _ hqb]
    rcases Nat.lt_trichotomy (a / 10 ^ k) (b / 10 ^ k) with hlt | heq | hgt
    · have hab : a < b := by
        by_contra hc
        push_neg at hc
        exact absurd (Nat.div_le_div_right (c := 10 ^ k) hc) (by omega)
      rw [if_pos (by omega)]
      simp [Nat.le_of_lt hab]
    · rw [if_neg (by omega), if_neg (by omega)]
      have hmoda : a % 10 ^ k < 10 ^ k := Nat.mod_lt _ hpow
      have hmodb : b % 10 ^ k < 10 ^ k := Nat.mod_lt _ hpow
      rw [ih _ _ hmoda hmodb]
      constructor
      · intro hmod
        calc a = 10 ^ k * (a / 10 ^ k) + a % 10 ^ k := (Nat.div_add_mod a (10 ^ k)).symm
          _ ≤ 10 ^ k * (a / 10 ^ k) + b % 10 ^ k := Nat.add_le_add_iff_left.mpr hmod
          _ = 10 ^ k * (b / 10 ^ k) + b % 10 ^ k := by rw [heq]
          _ = b := Nat.div_add_mod b (10 ^ k)
      · intro hab
        have h1 : 10 ^ k * (a / 10 ^ k) + a % 10 ^ k ≤
            10 ^ k * (a / 10 ^ k) + b % 10 ^ k := by
          calc 10 ^ k * (a / 10 ^ k) + a % 10 ^ k = a := Nat.div_add_mod a (10 ^ k)
            _ ≤ b := hab
            _ = 10 ^ k * (b / 10 ^ k) + b % 10 ^ k := (Nat.div_add_mod b (10 ^ k)).symm
            _ = 10 ^ k * (a / 10 ^ k) + b % 10 ^ k := by rw [heq]
        exact Nat.add_le_add_iff_left.mp h1
    · have hba : b < a := by
        by_contra hc
        push_neg at hc
        exact absurd (Nat.div_le_div_right (c := 10 ^ k) hc) (by omega)
      rw [if_neg (by omega), if_pos (by omega)]
      simp
      omega

/-- A lexicographic comparison survives truncating both strings to the same
length: used to pass from whole-filename order to timestamp-prefix order. -/
theorem lexLe_take : ∀ (k : ℕ) (xs ys : List Char), lexLe xs ys = true →
    lexLe (xs.take k) (ys.take k) = true := by
  intro k
  induction k with
  | zero =>
    intro xs ys _
    rw [List.take_zero, List.take_zero]
    rfl
  | succ k ih =>
    intro xs ys h
    match xs, ys with
    | [], ys => rw [List.take_nil]; rfl
    | a :: as, [] => exact absurd h (by simp [lexLe])
    | a :: as, b :: bs =>
      rw [List.take_succ_cons, List.take_succ_cons, lexLe_cons]
      rw [lexLe_cons] at h
      by_cases h1 : a.toNat < b.toNat
      · rw [if_pos h1]
      · rw [if_neg h1] at h ⊢
        by_cases h2 : b.toNat < a.toNat
        · rw [if_pos h2] at h
          exact absurd h (by simp)
        · rw [if_neg h2] at h ⊢
          exact ih as bs h

/-- Totality of the lexicographic comparison. -/
theorem lexLe_total : ∀ xs ys : List Char, (lexLe xs ys || lexLe ys xs) = true := by
  intro xs
  induction xs with
  | nil => intro ys; simp [lexLe]
  | cons a as ih =>
    intro ys
    match ys with
    | [] => simp [lexLe]
    | b :: bs =>
      rw [lexLe_cons, lexLe_cons]
      by_cases h1 : a.toNat < b.toNat
      · rw [if_pos h1]; simp
      · by_cases h2 : b.toNat < a.toNat
        · rw [if_neg h1, if_pos h2, if_pos h2]
          rfl
        · rw [if_neg h1, if_neg h2, if_neg h2, if_neg h1]
          exact ih bs

/-- Transitivity of the lexicographic comparison. -/
theorem lexLe_trans : ∀ xs ys zs : List Char,
    lexLe xs ys = true → lexLe ys zs = true → lexLe xs zs = true := by
  intro xs
  induction xs with
  | nil => intro ys zs _ _; rfl
  | cons a as ih =>
    intro ys zs h1 h2
    match ys, zs with
    | [], _ => exact absurd h1 (by simp [lexLe])
    | b :: bs, [] => exact absurd h2 (by simp [lexLe])
    | b :: bs, c :: cs =>
      rw [lexLe_cons] at h1 h2 ⊢
      by_cases hab : a.toNat < b.toNat
      · by_cases hbc : b.toNat < c.toNat
        · rw [if_pos (by omega)]
        · by_cases hcb : c.toNat < b.toNat
          · rw [if_neg hbc, if_pos hcb] at h2
            exact absurd h2 (by simp)
          · rw [if_pos (by omega)]
      · by_cases hba : b.toNat < a.toNat
        · rw [if_neg hab, if_pos hba] at h1
          exact absurd h1 (by simp)
        · rw [if_neg hab, if_neg hba] at h1
          by_cases hbc : b.toNat < c.toNat
          · rw [if_pos (by omega)]
          · by_cases hcb : c.toNat < b.toNat
            · rw [if_neg hbc, if_pos hcb] at h2
              exact absurd h2 (by simp)
            · rw [if_neg hbc, if_neg hcb] at h2
              rw [if_neg (by omega), if_neg (by omega)]
              exact ih bs cs h1 h2

/-- The decimal parser undoes the fixed-width encoding, for any accumulator. -/
theorem digitsValAux_padEncode :
    ∀ k acc n, n < 10 ^ k →
      digitsValAux acc (padEncode k n) = some (acc * 10 ^ k + n) := by
  intro k
  induction k with
  | zero =>
    intro acc n h
    have hn : n = 0 := by simpa using h
    subst hn
    simp [padEncode, digitsValAux]
  | succ k ih =>
    intro acc n h
    have hpow : 0 < 10 ^ k := pow_pos (by omega) k
    have hq : n / 10 ^ k < 10 := by
      rw [Nat.div_lt_iff_lt_mul hpow]
      calc n < 10 ^ (k + 1) := h
        _ = 10 * 10 ^ k := by ring
    have hdc : (Nat.digitChar (n / 10 ^ k)).toNat = 48 + n / 10 ^ k :=
      digitChar_toNat _ hq
    show digitsValAux acc
      (Nat.digitChar (n / 10 ^ k % 10) :: padEncode k (n % 10 ^ k)) = _
    rw [Nat.mod_eq_of_lt hq]
    show (if 48 ≤ (Nat.digitChar (n / 10 ^ k)).toNat ∧
        (Nat.digitChar (n / 10 ^ k)).toNat ≤ 57
      then digitsValAux (acc * 10 + ((Nat.digitChar (n / 10 ^ k)).toNat - 48))
        (padEncode k (n % 10 ^ k))
      else none) = _
    have h9 : n / 10 ^ k ≤ 9 := Nat.lt_succ_iff.mp hq
    have hcond : 48 ≤ (Nat.digitChar (n / 10 ^ k)).toNat ∧
        (Nat.digitChar (n / 10 ^ k)).toNat ≤ 57 := by
      rw [hdc]
      refine ⟨Nat.le_add_right 48 _, ?_⟩
      calc 48 + n / 10 ^ k ≤ 48 + 9 := Nat.add_le_add_left h9 48
        _ = 57 := rfl
    rw [if_pos hcond, hdc]
    have hmod : n % 10 ^ k < 10 ^ k := Nat.mod_lt _ hpow
    have h48 : 48 + n / 10 ^ k - 48 = n / 10 ^ k := Nat.add_sub_cancel_left 48 _
    rw [h48, ih (acc * 10 + n / 10 ^ k) (n % 10 ^ k) hmod]
    congr 1
    have hdm : 10 ^ k * (n / 10 ^ k) + n % 10 ^ k = n := Nat.div_add_mod n (10 ^ k)
    conv_rhs => rw [← hdm]
    ring

/-- The SQL Float cast of a fixed-width timestamp substring recovers the
encoded number. -/
theorem digitsVal_padEncode (k n : ℕ) (h : n < 10 ^ k) :
    digitsVal (padEncode k n) = some n := by
  have h0 := digitsValAux_padEncode k 0 n h
  simpa [digitsVal] using h0

/-! ### Lemmas on the ordering model and the query shape -/

/-- Membership across one insertion step. -/
theorem mem_insertLe {α : Type} (le : α → α → Bool) (a x : α) :
    ∀ l : List α, (x ∈ insertLe le a l ↔ x = a ∨ x ∈ l) := by
  intro l
  induction l with
  | nil => simp [insertLe]
  | cons b bs ih =>
    by_cases h : le a b
    · simp [insertLe, h]
    · simp [insertLe, h, ih]
      tauto

/-- Sorting does not change membership. -/
theorem mem_sortLe {α : Type} (le : α → α → Bool) (x : α) :
    ∀ l : List α, (x ∈ sortLe le l ↔ x ∈ l) := by
  intro l
  induction l with
  | nil => simp [sortLe]
  | cons a as ih => simp [sortLe, mem_insertLe, ih]

/-- Insertion preserves sortedness for a transitive total comparison. -/
theorem pairwise_insertLe {α : Type} (le : α → α → Bool)
    (htrans : ∀ a b c : α, le a b = true → le b c = true → le a c = true)
    (htot : ∀ a b : α, (le a b || le b a) = true)
    (a : α) : ∀ l : List α, l.Pairwise (fun x y => le x y = true) →
      (insertLe le a l).Pairwise (fun x y => le x y = true) := by
  intro l
  induction l with
  | nil => intro _; simp [insertLe]
  | cons b bs ih =>
    intro hp
    rw [List.pairwise_cons] at hp
    obtain ⟨hb, hbs⟩ := hp
    by_cases h : le a b
    · rw [show insertLe le a (b :: bs) = a :: b :: bs from by simp [insertLe, h]]
      rw [List.pairwise_cons]
      refine ⟨?_, ?_⟩
      · intro y hy
        rcases List.mem_cons.mp hy with rfl | hy'
        · exact h
        · exact htrans a b y h (hb y hy')
      · rw [List.pairwise_cons]
        exact ⟨hb, hbs⟩
    · have hba : le b a = true := by
        have hor := htot a b
        rw [Bool.or_eq_true] at hor
        rcases hor with h1 | h2
        · exact absurd h1 h
        · exact h2
      rw [show insertLe le a (b :: bs) = b :: insertLe le a bs from by
        simp [insertLe, h]]
      rw [List.pairwise_cons]
      refine ⟨?_, ih hbs⟩
      intro y hy
      rcases (mem_insertLe le a y bs).mp hy with rfl | hy'
      · exact hba
      · exact hb y hy'

/-- The ordering model produces a sorted list for a transitive total
comparison. -/
theorem pairwise_sortLe {α : Type} (le : α → α → Bool)
    (htrans : ∀ a b c : α, le a b = true → le b c = true → le a c = true)
    (htot : ∀ a b : α, (le a b || le b a) = true) :
    ∀ l : List α, (sortLe le l).Pairwise (fun x y => le x y = true) := by
  intro l
  induction l with
  | nil => simp [sortLe]
  | cons a as ih => exact pairwise_insertLe le htrans htot a _ ih

/-- Membership in the path join: both rows are present and the paths agree. -/
theorem mem_joinOnPath (fs : List Files) (fms : List FilesMeta)
    (p : Files × FilesMeta) :
    p ∈ joinOnPath fs fms ↔ p.1 ∈ fs ∧ p.2 ∈ fms ∧ p.1.path = p.2.path := by
  obtain ⟨f, fm⟩ := p
  unfold joinOnPath
  rw [List.mem_flatMap]
  constructor
  · rintro ⟨g, hg, hp⟩
    rw [List.mem_map] at hp
    obtain ⟨gm, hgm, hpq⟩ := hp
    rw [List.mem_filter] at hgm
    injection hpq with h1 h2
    subst h1
    subst h2
    exact ⟨hg, hgm.1, beq_iff_eq.mp hgm.2⟩
  · rintro ⟨h1, h2, h3⟩
    refine ⟨f, h1, ?_⟩
    rw [List.mem_map]
    refine ⟨fm, ?_, rfl⟩
    rw [List.mem_filter]
    exact ⟨h2, beq_iff_eq.mpr h3⟩

/-- Rows returned by `get_files` are exactly the joined rows passing the
where clauses. -/
theorem mem_get_files (rec : Recordings) (lookback now : ℚ) (db : DB)
    (p : Files × FilesMeta) :
    p ∈ (rec.get_files lookback now db).1 ↔
      (p ∈ joinOnPath db.files db.files_meta ∧
        whereClause rec (windowStart rec lookback) (windowEnd rec now) p.1 p.2
          = true) := by
  unfold Recordings.get_files
  simp only [mem_sortLe, List.mem_filter]

/-- Decomposition of the where clauses into their conjuncts. -/
theorem whereClause_eq_true_iff (rec : Recordings) (start endT : ℚ)
    (f : Files) (fm : FilesMeta) :
    whereClause rec start endT f fm = true ↔
      (f.camera_identifier = rec.camera_identifier ∧ f.category = "recorder" ∧
        strEndsWith f.path ".m4s" = true ∧
        (inWindow start endT f = true ∨ lookbackOverlap start f fm = true)) := by
  unfold whereClause
  simp [Bool.and_eq_true, Bool.or_eq_true, beq_iff_eq, and_assoc]

/-- Full membership characterization of `get_files` in terms of row presence,
the static filters, and the two inclusion branches. -/
theorem mem_get_files_char (rec : Recordings) (lookback now : ℚ) (db : DB)
    (p : Files × FilesMeta) :
    p ∈ (rec.get_files lookback now db).1 ↔
      (p.1 ∈ db.files ∧ p.2 ∈ db.files_meta ∧ p.1.path = p.2.path ∧
        p.1.camera_identifier = rec.camera_identifier ∧
        p.1.category = "recorder" ∧ strEndsWith p.1.path ".m4s" = true ∧
        (inWindow (windowStart rec lookback) (windowEnd rec now) p.1 = true ∨
          lookbackOverlap (windowStart rec lookback) p.1 p.2 = true)) := by
  rw [mem_get_files, mem_joinOnPath, whereClause_eq_true_iff]
  tauto

/-! ### Numeric characterization of the two inclusion branches -/

/-- Python `str` of a non-negative int is the unpadded decimal rendering. -/
theorem intStr_natCast (n : ℕ) : intStr ((n : ℤ)) = natStr n := by
  rw [intStr, if_neg (Int.not_lt.mpr (Int.natCast_nonneg n)), Int.toNat_natCast]

/-- Truncation of an integral rational is the integer itself. -/
theorem ratTrunc_natCast (n : ℕ) : ratTrunc ((n : ℚ)) = (n : ℤ) := by
  rw [ratTrunc, Rat.num_natCast, Rat.den_natCast]
  exact Int.tdiv_one _

/-- The in-window string test, under the shared 10-digit width of the two
stringified bounds and the filename prefix, is numeric interval membership of
the truncated bounds. -/
theorem inWindow_eq_true_iff (s e : ℚ) (f : Files) (tf : ℕ)
    (henc : substrTs f = padEncode 10 tf) (htf : tf < 10 ^ 10)
    (hs1 : 10 ^ 9 ≤ ratTrunc s) (hs2 : ratTrunc s < 10 ^ 10)
    (he1 : 10 ^ 9 ≤ ratTrunc e) (he2 : ratTrunc e < 10 ^ 10) :
    (inWindow s e f = true ↔
      (ratTrunc s ≤ (tf : ℤ) ∧ (tf : ℤ) ≤ ratTrunc e)) := by
  have hs0 : 0 ≤ ratTrunc s := le_trans (by norm_num) hs1
  have he0 : 0 ≤ ratTrunc e := le_trans (by norm_num) he1
  obtain ⟨sN, hsN⟩ : ∃ m : ℕ, ratTrunc s = (m : ℤ) :=
    ⟨(ratTrunc s).toNat, (Int.toNat_of_nonneg hs0).symm⟩
  obtain ⟨eN, heN⟩ : ∃ m : ℕ, ratTrunc e = (m : ℤ) :=
    ⟨(ratTrunc e).toNat, (Int.toNat_of_nonneg he0).symm⟩
  rw [hsN] at hs1 hs2
  rw [heN] at he1 he2
  have hsN1 : 10 ^ 9 ≤ sN := by exact_mod_cast hs1
  have hsN2 : sN < 10 ^ 10 := by exact_mod_cast hs2
  have heN1 : 10 ^ 9 ≤ eN := by exact_mod_cast he1
  have heN2 : eN < 10 ^ 10 := by exact_mod_cast he2
  unfold inWindow
  rw [henc, hsN, heN, intStr_natCast, intStr_natCast,
    natStr_eq_padEncode 9 sN hsN1 hsN2, natStr_eq_padEncode 9 eN heN1 heN2,
    Bool.and_eq_true, lexLe_padEncode 10 sN tf hsN2 htf,
    lexLe_padEncode 10 tf eN htf heN2]
  constructor
  · rintro ⟨h1, h2⟩
    exact ⟨by exact_mod_cast h1, by exact_mod_cast h2⟩
  · rintro ⟨h1, h2⟩
    exact ⟨by exact_mod_cast h1, by exact_mod_cast h2⟩

/-- For a fragment whose encoded start lies strictly before the truncated
window start, the in-window string test fails, whatever the upper bound. -/
theorem inWindow_eq_false_of_lt (s e : ℚ) (f : Files) (tf : ℕ)
    (henc : substrTs f = padEncode 10 tf) (htf : tf < 10 ^ 10)
    (hs1 : 10 ^ 9 ≤ ratTrunc s) (hs2 : ratTrunc s < 10 ^ 10)
    (hlt : (tf : ℤ) < ratTrunc s) :
    inWindow s e f = false := by
  have hs0 : 0 ≤ ratTrunc s := le_trans (by norm_num) hs1
  obtain ⟨sN, hsN⟩ : ∃ m : ℕ, ratTrunc s = (m : ℤ) :=
    ⟨(ratTrunc s).toNat, (Int.toNat_of_nonneg hs0).symm⟩
  rw [hsN] at hs1 hs2 hlt
  have hsN1 : 10 ^ 9 ≤ sN := by exact_mod_cast hs1
  have hsN2 : sN < 10 ^ 10 := by exact_mod_cast hs2
  have hltN : tf < sN := by exact_mod_cast hlt
  unfold inWindow
  rw [henc, hsN, intStr_natCast, natStr_eq_padEncode 9 sN hsN1 hsN2]
  have hfalse : lexLe (padEncode 10 sN) (padEncode 10 tf) = false := by
    rw [Bool.eq_false_iff]
    intro hcontra
    have := (lexLe_padEncode 10 sN tf hsN2 htf).mp hcontra
    omega
  rw [hfalse, Bool.false_and]

/-- The lookback branch holds exactly when the metadata carries a duration
and the fragment play interval covers the window start. -/
theorem lookbackOverlap_eq_true_iff (s : ℚ) (f : Files) (fm : FilesMeta)
    (tf : ℕ) (henc : substrTs f = padEncode 10 tf) (htf : tf < 10 ^ 10) :
    (lookbackOverlap s f fm = true ↔
      ∃ d, extinf fm = some d ∧ (tf : ℚ) ≤ s ∧ s ≤ (tf : ℚ) + d) := by
  unfold lookbackOverlap
  rw [henc, digitsVal_padEncode 10 tf htf]
  cases hd : extinf fm with
  | none => simp
  | some d => simp [Bool.and_eq_true, decide_eq_true_eq]

/-! ### Claim theorems -/

/-- Claim C1 (corrected), amended statement.  For a candidate fragment of a
camera, with all stringified bounds and the filename prefix sharing the
10-digit width, membership in `get_files` holds iff the decoded start lies
between the TRUNCATED window bounds `int(start)` and `int(end)`, or the play
interval covers the exact window start (with `t_f ≤ s`, not `t_f < s`). -/
theorem get_files_window_rule_amended
    (rec : Recordings) (lookback now : ℚ) (db : DB)
    (f : Files) (fm : FilesMeta) (tf : ℕ) (df : ℚ)
    (hf : f ∈ db.files) (hfm : fm ∈ db.files_meta) (hpath : f.path = fm.path)
    (hcam : f.camera_identifier = rec.camera_identifier)
    (hcat : f.category = "recorder")
    (hsuf : strEndsWith f.path ".m4s" = true)
    (henc : substrTs f = padEncode 10 tf) (htf : tf < 10 ^ 10)
    (hs1 : 10 ^ 9 ≤ ratTrunc (windowStart rec lookback))
    (hs2 : ratTrunc (windowStart rec lookback) < 10 ^ 10)
    (he1 : 10 ^ 9 ≤ ratTrunc (windowEnd rec now))
    (he2 : ratTrunc (windowEnd rec now) < 10 ^ 10)
    (hdur : extinf fm = some df) :
    ((f, fm) ∈ (rec.get_files lookback now db).1 ↔
      ((ratTrunc (windowStart rec lookback) ≤ (tf : ℤ) ∧
          (tf : ℤ) ≤ ratTrunc (windowEnd rec now)) ∨
        ((tf : ℚ) ≤ windowStart rec lookback ∧
          windowStart rec lookback ≤ (tf : ℚ) + df))) := by
  rw [mem_get_files_char,
    inWindow_eq_true_iff (windowStart rec lookback) (windowEnd rec now) f tf
      henc htf hs1 hs2 he1 he2,
    lookbackOverlap_eq_true_iff (windowStart rec lookback) f fm tf henc htf]
  constructor
  · rintro ⟨_, _, _, _, _, _, h⟩
    rcases h with h | ⟨d, hd, h1, h2⟩
    · exact Or.inl h
    · rw [hdur] at hd
      injection hd with hdd
      subst hdd
      exact Or.inr ⟨h1, h2⟩
  · intro h
    refine ⟨hf, hfm, hpath, hcam, hcat, hsuf, ?_⟩
    rcases h with h | ⟨h1, h2⟩
    · exact Or.inl h
    · exact Or.inr ⟨df, hdur, h1, h2⟩

/-- Claim C1 counterexample.  With the half-second lookback, the window start
is `1700000000.5`; the fragment encoded at `1700000000` with duration `1/4`
satisfies neither disjunct of the claimed rule (its play interval ends at
`1700000000.25 < 1700000000.5`), yet the query returns it, because the
string comparison uses the truncated bound `int(start) = 1700000000`. -/
theorem get_files_window_rule_counterexample :
    (0 : ℚ) ≤ qHalf ∧
    extinf metaA = some qQuarter ∧
    substrTs fileA = padEncode 10 1700000000 ∧
    (fileA, metaA) ∈ (recA.get_files qHalf 0 dbA).1 ∧
    ¬ ((windowStart recA qHalf ≤ ((1700000000 : ℕ) : ℚ) ∧
        ((1700000000 : ℕ) : ℚ) ≤ windowEnd recA 0) ∨
      (((1700000000 : ℕ) : ℚ) < windowStart recA qHalf ∧
        ((1700000000 : ℕ) : ℚ) + qQuarter ≥ windowStart recA qHalf)) := by
  refine ⟨by decide, rfl, by decide, ?_, by decide⟩
  rw [show (recA.get_files qHalf 0 dbA).1 = [(fileA, metaA)] from rfl]
  exact List.mem_singleton.mpr rfl

/-- Claim C2 (corrected), amended statement.  A fragment whose encoded start
is strictly before the truncated window start is returned exactly when it is
a candidate row and its play interval still covers the window start; several
such pre-window fragments can be returned, not at most one. -/
theorem get_files_pre_window_mem_iff
    (rec : Recordings) (lookback now : ℚ) (db : DB)
    (f : Files) (fm : FilesMeta) (tf : ℕ)
    (henc : substrTs f = padEncode 10 tf) (htf : tf < 10 ^ 10)
    (hs1 : 10 ^ 9 ≤ ratTrunc (windowStart rec lookback))
    (hs2 : ratTrunc (windowStart rec lookback) < 10 ^ 10)
    (hlt : (tf : ℤ) < ratTrunc (windowStart rec lookback)) :
    ((f, fm) ∈ (rec.get_files lookback now db).1 ↔
      (f ∈ db.files ∧ fm ∈ db.files_meta ∧ f.path = fm.path ∧
        f.camera_identifier = rec.camera_identifier ∧
        f.category = "recorder" ∧ strEndsWith f.path ".m4s" = true ∧
        ∃ d, extinf fm = some d ∧ (tf : ℚ) ≤ windowStart rec lookback ∧
          windowStart rec lookback ≤ (tf : ℚ) + d)) := by
  rw [mem_get_files_char,
    inWindow_eq_false_of_lt (windowStart rec lookback) (windowEnd rec now) f tf
      henc htf hs1 hs2 hlt,
    lookbackOverlap_eq_true_iff (windowStart rec lookback) f fm tf henc htf]
  simp

/-- Claim C2 counterexample.  Two distinct overlapping fragments both start
strictly before the window start `1700000100` and both cover it, and the
query returns both: the result does not contain at most one pre-window
fragment. -/
theorem get_files_pre_window_multiple_counterexample :
    (fileB1, metaB1) ∈ (recB.get_files 0 0 dbB).1 ∧
    (fileB2, metaB2) ∈ (recB.get_files 0 0 dbB).1 ∧
    fileB1.filename ≠ fileB2.filename ∧
    substrTs fileB1 = padEncode 10 1700000090 ∧
    substrTs fileB2 = padEncode 10 1700000095 ∧
    ((1700000090 : ℕ) : ℚ) < windowStart recB 0 ∧
    ((1700000095 : ℕ) : ℚ) < windowStart recB 0 := by
  have hres : (recB.get_files 0 0 dbB).1 = [(fileB1, metaB1), (fileB2, metaB2)] :=
    rfl
  refine ⟨?_, ?_, by decide, by decide, by decide, by decide, by decide⟩
  · rw [hres]
    exact List.mem_cons_self _ _
  · rw [hres]
    exact List.mem_cons_of_mem _ (List.mem_cons_self _ _)

/-- Claim C3.  The result of `get_files` is sorted ascending by filename,
and on fragments carrying the fixed-width encoded start this coincides with
ascending order of the encoded start timestamps. -/
theorem get_files_sorted_by_filename_and_ts (rec : Recordings)
    (lookback now : ℚ) (db : DB) :
    ((rec.get_files lookback now db).1).Pairwise
      (fun a b : Files × FilesMeta =>
        lexLe a.1.filename.data b.1.filename.data = true ∧
        (∀ ta tb : ℕ, ta < 10 ^ 10 → tb < 10 ^ 10 →
          substrTs a.1 = padEncode 10 ta → substrTs b.1 = padEncode 10 tb →
          ta ≤ tb)) := by
  have hp : ((rec.get_files lookback now db).1).Pairwise
      (fun a b : Files × FilesMeta =>
        lexLe a.1.filename.data b.1.filename.data = true) := by
    exact pairwise_sortLe
      (fun a b : Files × FilesMeta => lexLe a.1.filename.data b.1.filename.data)
      (fun a b c hab hbc => lexLe_trans _ _ _ hab hbc)
      (fun a b => lexLe_total _ _)
      ((joinOnPath db.files db.files_meta).filter
        (fun p => whereClause rec (windowStart rec lookback)
          (windowEnd rec now) p.1 p.2))
  refine hp.imp ?_
  intro a b hab
  refine ⟨hab, ?_⟩
  intro ta tb hta htb hea heb
  have htake := lexLe_take 10 _ _ hab
  rw [show a.1.filename.data.take 10 = substrTs a.1 from rfl,
    show b.1.filename.data.take 10 = substrTs b.1 from rfl, hea, heb] at htake
  exact (lexLe_padEncode 10 ta tb hta htb).mp htake

/-- Claim C4.  Every returned pair has the recording's camera identifier, the
"recorder" category, and the ".m4s" path suffix. -/
theorem get_files_static_filters (rec : Recordings) (lookback now : ℚ)
    (db : DB) (p : Files × FilesMeta)
    (hp : p ∈ (rec.get_files lookback now db).1) :
    p.1.camera_identifier = rec.camera_identifier ∧
    p.1.category = "recorder" ∧ strEndsWith p.1.path ".m4s" = true := by
  have h := (mem_get_files_char rec lookback now db p).mp hp
  exact ⟨h.2.2.2.1, h.2.2.2.2.1, h.2.2.2.2.2.1⟩

/-- Claim C5.  The string comparison of the in-window test agrees with
numeric comparison for integer window bounds, given the shared 10-digit
width. -/
theorem inWindow_string_cmp_agrees_numeric (s e tf : ℕ) (f : Files)
    (hs1 : 10 ^ 9 ≤ s) (hs2 : s < 10 ^ 10) (he1 : 10 ^ 9 ≤ e)
    (he2 : e < 10 ^ 10) (htf : tf < 10 ^ 10)
    (henc : substrTs f = padEncode 10 tf) :
    (inWindow (s : ℚ) (e : ℚ) f = true ↔ (s ≤ tf ∧ tf ≤ e)) := by
  have hs' : ratTrunc ((s : ℚ)) = (s : ℤ) := ratTrunc_natCast s
  have he' : ratTrunc ((e : ℚ)) = (e : ℤ) := ratTrunc_natCast e
  rw [inWindow_eq_true_iff (s : ℚ) (e : ℚ) f tf henc htf
      (by rw [hs']; exact_mod_cast hs1) (by rw [hs']; exact_mod_cast hs2)
      (by rw [he']; exact_mod_cast he1) (by rw [he']; exact_mod_cast he2),
    hs', he']
  constructor
  · rintro ⟨h1, h2⟩
    exact ⟨by exact_mod_cast h1, by exact_mod_cast h2⟩
  · rintro ⟨h1, h2⟩
    exact ⟨by exact_mod_cast h1, by exact_mod_cast h2⟩

/-- Claim C6 (corrected), amended statement.  A fragment whose encoded start
is strictly before the TRUNCATED window start and whose metadata lacks the
nested EXTINF duration is not returned; the query still returns its other
rows rather than failing. -/
theorem get_files_missing_duration_excluded (rec : Recordings)
    (lookback now : ℚ) (db : DB) (f : Files) (fm : FilesMeta) (tf : ℕ)
    (henc : substrTs f = padEncode 10 tf) (htf : tf < 10 ^ 10)
    (hs1 : 10 ^ 9 ≤ ratTrunc (windowStart rec lookback))
    (hs2 : ratTrunc (windowStart rec lookback) < 10 ^ 10)
    (hlt : (tf : ℤ) < ratTrunc (windowStart rec lookback))
    (hdur : extinf fm = none) :
    (f, fm) ∉ (rec.get_files lookback now db).1 := by
  intro hmem
  have hc := (mem_get_files_char rec lookback now db (f, fm)).mp hmem
  rcases hc.2.2.2.2.2.2 with hin | hover
  · rw [inWindow_eq_false_of_lt (windowStart rec lookback) (windowEnd rec now)
      f tf henc htf hs1 hs2 hlt] at hin
    exact Bool.false_ne_true hin
  · obtain ⟨d, hd, _, _⟩ :=
      (lookbackOverlap_eq_true_iff (windowStart rec lookback) f fm tf
        henc htf).mp hover
    rw [hdur] at hd
    exact Option.noConfusion hd

/-- Claim C6 counterexample.  With the fractional window start
`1700000000.5`, the fragment encoded at `1700000000` starts strictly before
the window start and its metadata has no EXTINF duration, yet `get_files`
returns it through the truncated in-window comparison. -/
theorem missing_duration_included_counterexample :
    extinf metaC = none ∧
    substrTs fileA = padEncode 10 1700000000 ∧
    ((1700000000 : ℕ) : ℚ) < windowStart recA qHalf ∧
    (fileA, metaC) ∈ (recA.get_files qHalf 0 dbC).1 := by
  refine ⟨rfl, by decide, by decide, ?_⟩
  rw [show (recA.get_files qHalf 0 dbC).1 = [(fileA, metaC)] from rfl]
  exact List.mem_singleton.mpr rfl

/-- Claim C9.  `get_files` executes a single SELECT and leaves every relation
of the store unchanged. -/
theorem get_files_readonly (rec : Recordings) (lookback now : ℚ) (db : DB) :
    (rec.get_files lookback now db).2.files = db.files ∧
    (rec.get_files lookback now db).2.files_meta = db.files_meta ∧
    (rec.get_files lookback now db).2.recordings = db.recordings ∧
    (rec.get_files lookback now db).2.objects = db.objects ∧
    (rec.get_files lookback now db).2.motion = db.motion :=
  ⟨rfl, rfl, rfl, rfl, rfl⟩

/-- Claim C10.  A Files row with no FilesMeta row of the same path is never
returned, the inner join making metadata a precondition for inclusion. -/
theorem get_files_requires_meta_row (rec : Recordings) (lookback now : ℚ)
    (db : DB) (f : Files)
    (h : ∀ fm ∈ db.files_meta, fm.path ≠ f.path) :
    ∀ fm, (f, fm) ∉ (rec.get_files lookback now db).1 := by
  intro fm hmem
  have hc := (mem_get_files_char rec lookback now db (f, fm)).mp hmem
  exact h fm hc.2.1 hc.2.2.1.symm

/-- Claim C7.  When the registry does not resolve the camera identifier, both
the GET and the DELETE handlers send the not-found error response and make no
recorder core call at all. -/
theorem handlers_missing_camera_not_found {R : Type}
    (reg : String → Option (Camera R)) (args : RequestArgs)
    (cid : String) (date filename : Option String)
    (h : reg cid = none) :
    RecordingsAPIHandler.get_recordings_camera reg args cid date =
      (ApiResponse.error STATUS_ERROR_ENDPOINT_NOT_FOUND
        ("Camera " ++ cid ++ " not found"), []) ∧
    RecordingsAPIHandler.delete_recording reg cid date filename =
      (ApiResponse.error STATUS_ERROR_ENDPOINT_NOT_FOUND
        ("Camera " ++ cid ++ " not found"), []) := by
  unfold RecordingsAPIHandler.get_recordings_camera
    RecordingsAPIHandler.delete_recording
  rw [h]
  exact ⟨rfl, rfl⟩

/-- Claim C8.  On an existing camera, the DELETE handler answers success
exactly when the core `delete_recording(date, filename)` returns true,
answers the internal-error failure response when it returns false, and in
both cases makes exactly that one core delete call. -/
theorem delete_recording_response_boolean {R : Type}
    (reg : String → Option (Camera R)) (cid : String) (cam : Camera R)
    (date filename : Option String) (h : reg cid = some cam) :
    ((RecordingsAPIHandler.delete_recording reg cid date filename).1 =
        ApiResponse.successEmpty ↔
      cam.recorder.delete_recording date filename = true) ∧
    (cam.recorder.delete_recording date filename = false →
      (RecordingsAPIHandler.delete_recording reg cid date filename).1 =
        ApiResponse.error STATUS_ERROR_INTERNAL
          ("Failed to delete recording. Date=" ++ optStr date ++
            " filename=" ++ optStr filename)) ∧
    (RecordingsAPIHandler.delete_recording reg cid date filename).2 =
      [CoreCall.deleteRecording date filename] := by
  unfold RecordingsAPIHandler.delete_recording
  rw [h]
  cases hb : cam.recorder.delete_recording date filename with
  | true => simp [hb]
  | false => simp [hb]

/-! ### Witnesses for the claim theorems with hypotheses -/

/-- Witness for the amended C1 theorem at a concrete store. -/
theorem get_files_window_rule_amended_witness :
    ((fileA, metaA) ∈ (recA.get_files 0 0 dbA).1 ↔
      ((ratTrunc (windowStart recA 0) ≤ ((1700000000 : ℕ) : ℤ) ∧
          ((1700000000 : ℕ) : ℤ) ≤ ratTrunc (windowEnd recA 0)) ∨
        (((1700000000 : ℕ) : ℚ) ≤ windowStart recA 0 ∧
          windowStart recA 0 ≤ ((1700000000 : ℕ) : ℚ) + qQuarter))) :=
  get_files_window_rule_amended recA 0 0 dbA fileA metaA 1700000000 qQuarter
    (List.mem_singleton.mpr rfl) (List.mem_singleton.mpr rfl) rfl rfl rfl
    (by decide) (by decide) (by decide) (by decide) (by decide) (by decide)
    (by decide) rfl

/-- Witness for the amended C2 theorem at a concrete store. -/
theorem get_files_pre_window_mem_iff_witness :
    ((fileB1, metaB1) ∈ (recB.get_files 0 0 dbB).1 ↔
      (fileB1 ∈ dbB.files ∧ metaB1 ∈ dbB.files_meta ∧
        fileB1.path = metaB1.path ∧
        fileB1.camera_identifier = recB.camera_identifier ∧
        fileB1.category = "recorder" ∧ strEndsWith fileB1.path ".m4s" = true ∧
        ∃ d, extinf metaB1 = some d ∧
          ((1700000090 : ℕ) : ℚ) ≤ windowStart recB 0 ∧
          windowStart recB 0 ≤ ((1700000090 : ℕ) : ℚ) + d)) :=
  get_files_pre_window_mem_iff recB 0 0 dbB fileB1 metaB1 1700000090
    (by decide) (by decide) (by decide) (by decide) (by decide)

/-- Witness for the C4 theorem at a concrete returned row. -/
theorem get_files_static_filters_witness :
    (fileB1, metaB1).1.camera_identifier = recB.camera_identifier ∧
    (fileB1, metaB1).1.category = "recorder" ∧
    strEndsWith (fileB1, metaB1).1.path ".m4s" = true :=
  get_files_static_filters recB 0 0 dbB (fileB1, metaB1)
    (by rw [show (recB.get_files 0 0 dbB).1 =
          [(fileB1, metaB1), (fileB2, metaB2)] from rfl]
        exact List.mem_cons_self _ _)

/-- Witness for the C5 theorem at concrete bounds and fragment. -/
theorem inWindow_string_cmp_agrees_numeric_witness :
    (inWindow ((1700000001 : ℕ) : ℚ) ((1700000100 : ℕ) : ℚ) fileA = true ↔
      ((1700000001 : ℕ) ≤ 1700000000 ∧ (1700000000 : ℕ) ≤ 1700000100)) :=
  inWindow_string_cmp_agrees_numeric 1700000001 1700000100 1700000000 fileA
    (by decide) (by decide) (by decide) (by decide) (by decide) (by decide)

/-- Witness for the amended C6 theorem at a concrete store. -/
theorem get_files_missing_duration_excluded_witness :
    (fileA, metaC) ∉ (recB.get_files 0 0 dbC).1 :=
  get_files_missing_duration_excluded recB 0 0 dbC fileA metaC 1700000000
    (by decide) (by decide) (by decide) (by decide) (by decide) rfl

/-- Witness for the C7 theorem at a registry missing the camera. -/
theorem handlers_missing_camera_not_found_witness :
    RecordingsAPIHandler.get_recordings_camera regX ⟨false, false⟩ "garage"
        none =
      (ApiResponse.error STATUS_ERROR_ENDPOINT_NOT_FOUND
        ("Camera " ++ "garage" ++ " not found"), []) ∧
    RecordingsAPIHandler.delete_recording regX "garage" none none =
      (ApiResponse.error STATUS_ERROR_ENDPOINT_NOT_FOUND
        ("Camera " ++ "garage" ++ " not found"), []) :=
  handlers_missing_camera_not_found regX ⟨false, false⟩ "garage" none none rfl

/-- Witness for the C8 theorem at a concrete camera whose delete fails. -/
theorem delete_recording_response_boolean_witness :
    ((RecordingsAPIHandler.delete_recording regX "front_door" none none).1 =
        ApiResponse.successEmpty ↔
      camX.recorder.delete_recording none none = true) ∧
    (camX.recorder.delete_recording none none = false →
      (RecordingsAPIHandler.delete_recording regX "front_door" none none).1 =
        ApiResponse.error STATUS_ERROR_INTERNAL
          ("Failed to delete recording. Date=" ++ optStr none ++
            " filename=" ++ optStr none)) ∧
    (RecordingsAPIHandler.delete_recording regX "front_door" none none).2 =
      [CoreCall.deleteRecording none none] :=
  delete_recording_response_boolean regX "front_door" camX none none rfl

/-- Witness for the C10 theorem at a store with no metadata rows. -/
theorem get_files_requires_meta_row_witness :
    (fileA, metaA) ∉ (recB.get_files 0 0 dbD).1 :=
  get_files_requires_meta_row recB 0 0 dbD fileA
    (by intro fm hfm; exact absurd hfm (List.not_mem_nil fm)) metaA
